import Mathlib

set_option maxRecDepth 100000

/-!
# Verified model of the scraperetivo event pipeline

A shallow embedding, in Lean 4, of the core data model and operations of the
scraperetivo repository (an event-scraping pipeline): the `Event` record and
its JSON-dict serialization (`src/tourist_events/storage/models.py`), the
JSON-file event store (`src/storage/event_storage.py`), the date extractor
(`src/processor/date_extractor.py`), the record builder
(`src/crawler/spiders/base_spider.py` and
`src/tourist_events/processor/event_processor.py`), the per-source event
selection of the Telegram handler (`src/telegram_bot/handlers.py`), and the
caption formatter (`src/tourist_events/telegram_bot/formatters.py`).

Python datetimes are modelled as records of numeric fields; Python `None`
values as `Option`; Python exceptions as `Except Unit`; the mutable JSON
document of the store as explicit state passed through the functions.
-/

/-! ## Naive datetimes and dates

Python `datetime.datetime` (timezone-naive, as the code configures) is a
record of calendar and clock fields; `datetime.date` keeps the calendar
fields only. -/

/-- Model of a naive Python `datetime.datetime`. -/
structure DateTime where
  year : Nat
  month : Nat
  day : Nat
  hour : Nat
  minute : Nat
  second : Nat
  microsecond : Nat
deriving DecidableEq, Repr

/-- Model of a Python `datetime.date`. -/
structure DateD where
  year : Nat
  month : Nat
  day : Nat
deriving DecidableEq, Repr

/-- The field bounds Python's `datetime` constructor enforces (we do not model
the day-of-month/leap rules beyond `day ≤ 31`; no claim depends on them). -/
def DateTime.Valid (t : DateTime) : Prop :=
  1 ≤ t.year ∧ t.year ≤ 9999 ∧ 1 ≤ t.month ∧ t.month ≤ 12 ∧
  1 ≤ t.day ∧ t.day ≤ 31 ∧ t.hour ≤ 23 ∧ t.minute ≤ 59 ∧
  t.second ≤ 59 ∧ t.microsecond ≤ 999999

instance (t : DateTime) : Decidable t.Valid := by
  unfold DateTime.Valid; infer_instance

/-- `datetime.date()`: the date part of a datetime. -/
def DateTime.dateOf (t : DateTime) : DateD := ⟨t.year, t.month, t.day⟩

/-- `datetime.min`: the smallest representable datetime, year 1. -/
def dtMin : DateTime := ⟨1, 1, 1, 0, 0, 0, 0⟩

/-- A numeric key that orders valid datetimes exactly as Python's
field-lexicographic datetime comparison does (each field is packed below
its bound). -/
def DateTime.key (t : DateTime) : Nat :=
  (((((t.year * 13 + t.month) * 32 + t.day) * 24 + t.hour) * 60 +
      t.minute) * 60 + t.second) * 1000000 + t.microsecond

/-- Boolean `≤` on datetimes (Python `datetime <= datetime`). -/
def DateTime.le (a b : DateTime) : Bool := a.key ≤ b.key

/-- Packing key for dates, ordering valid dates as Python orders them. -/
def DateD.key (d : DateD) : Nat := (d.year * 13 + d.month) * 32 + d.day

/-- Boolean `<` on dates (Python `date < date`). -/
def DateD.lt (a b : DateD) : Bool := a.key < b.key

/-! ## ISO-8601 formatting and parsing

`datetime.isoformat()` prints `YYYY-MM-DDTHH:MM:SS`, appending `.ffffff`
exactly when the microsecond field is nonzero; `datetime.fromisoformat`
parses that output back. We model the printer with zero-padded fixed-width
decimal fields and the parser on exactly the printer's grammar. -/

/-- The numeric value of a decimal digit character, if it is one. -/
def digitVal (c : Char) : Option Nat :=
  if '0' ≤ c ∧ c ≤ '9' then some (c.toNat - 48) else none

/-- Two-digit zero-padded decimal (`%02d`) as characters. -/
def pad2 (n : Nat) : List Char :=
  [Nat.digitChar (n / 10 % 10), Nat.digitChar (n % 10)]

/-- Four-digit zero-padded decimal (`%04d`) as characters. -/
def pad4 (n : Nat) : List Char :=
  [Nat.digitChar (n / 1000 % 10), Nat.digitChar (n / 100 % 10),
   Nat.digitChar (n / 10 % 10), Nat.digitChar (n % 10)]

/-- Six-digit zero-padded decimal (`%06d`) as characters. -/
def pad6 (n : Nat) : List Char :=
  [Nat.digitChar (n / 100000 % 10), Nat.digitChar (n / 10000 % 10),
   Nat.digitChar (n / 1000 % 10), Nat.digitChar (n / 100 % 10),
   Nat.digitChar (n / 10 % 10), Nat.digitChar (n % 10)]

/-- The characters of `datetime.isoformat()`. -/
def DateTime.isoChars (t : DateTime) : List Char :=
  pad4 t.year ++ '-' :: pad2 t.month ++ '-' :: pad2 t.day ++
  'T' :: pad2 t.hour ++ ':' :: pad2 t.minute ++ ':' :: pad2 t.second ++
  (if t.microsecond = 0 then [] else '.' :: pad6 t.microsecond)

/-- `datetime.isoformat()`. -/
def DateTime.isoformat (t : DateTime) : String := String.mk t.isoChars

/-- Read two decimal digit characters as a number. -/
def read2 (a b : Char) : Option Nat := do
  let x ← digitVal a; let y ← digitVal b; pure (x * 10 + y)

/-- Read four decimal digit characters as a number. -/
def read4 (a b c d : Char) : Option Nat := do
  let x ← read2 a b; let y ← read2 c d; pure (x * 100 + y)

/-- Read six decimal digit characters as a number. -/
def read6 (a b c d e f : Char) : Option Nat := do
  let x ← read4 a b c d; let y ← read2 e f; pure (x * 100 + y)

/-- `datetime.fromisoformat` on the grammar `isoformat` emits (with and
without the fractional-seconds suffix); any other shape is a parse failure
(Python raises `ValueError`, modelled as `none`). -/
def fromisoformat (s : String) : Option DateTime :=
  match s.data with
  | y1 :: y2 :: y3 :: y4 :: '-' :: m1 :: m2 :: '-' :: d1 :: d2 ::
      'T' :: h1 :: h2 :: ':' :: n1 :: n2 :: ':' :: s1 :: s2 :: rest => do
    let y ← read4 y1 y2 y3 y4
    let mo ← read2 m1 m2
    let d ← read2 d1 d2
    let h ← read2 h1 h2
    let mi ← read2 n1 n2
    let se ← read2 s1 s2
    match rest with
    | [] => pure ⟨y, mo, d, h, mi, se, 0⟩
    | '.' :: u1 :: u2 :: u3 :: u4 :: u5 :: u6 :: [] => do
      let us ← read6 u1 u2 u3 u4 u5 u6
      pure ⟨y, mo, d, h, mi, se, us⟩
    | _ => none
  | _ => none

/-! ## The canonical event record and its stored form

`Event` mirrors the dataclass in `src/tourist_events/storage/models.py`;
`EventDict` mirrors the dictionary produced by `Event.to_dict` (one element
of the persisted JSON array). -/

/-- The `Event` dataclass (`src/tourist_events/storage/models.py`). -/
structure Event where
  title : String
  description : String
  date : Option DateTime
  image_url : Option String
  source_url : String
  event_type : Option String
  summary_en : Option String
  id : String
  created_at : DateTime
deriving DecidableEq, Repr

/-- The dictionary shape produced by `Event.to_dict` (an element of the
persisted JSON array; `none` models JSON `null`). -/
structure EventDict where
  id : String
  title : String
  description : String
  date : Option String
  image_url : Option String
  source_url : String
  event_type : Option String
  summary_en : Option String
  created_at : String
deriving DecidableEq, Repr

/-- `Event.to_dict`: `date` becomes its ISO string or null; `created_at`
becomes its ISO string; other fields pass through. -/
def Event.to_dict (e : Event) : EventDict :=
  { id := e.id
    title := e.title
    description := e.description
    date := match e.date with
      | some d => some d.isoformat
      | none => none
    image_url := e.image_url
    source_url := e.source_url
    event_type := e.event_type
    summary_en := e.summary_en
    created_at := e.created_at.isoformat }

/-- `Event.from_dict`: parses `date` when the stored value is truthy (a
non-null, non-empty string), parses `created_at`; a parse failure is
Python's `ValueError`, modelled by `none`. -/
def Event.from_dict (d : EventDict) : Option Event := do
  let date ← match d.date with
    | some s =>
      if s = "" then pure (none : Option DateTime)
      else match fromisoformat s with
        | some t => pure (some t)
        | none => none
    | none => pure (none : Option DateTime)
  let created ← fromisoformat d.created_at
  pure { title := d.title
         description := d.description
         date := date
         image_url := d.image_url
         source_url := d.source_url
         event_type := d.event_type
         summary_en := d.summary_en
         id := d.id
         created_at := created }

/-! ## The JSON-file event store (`src/storage/event_storage.py`)

The persisted document is an ordered array of event dicts; we pass it
explicitly as a `List EventDict`.  `save_events` loads the document, builds
the set of stored ids, appends the `to_dict` of each input event whose id is
not yet present (also recording the id, so later duplicates in the same
batch are skipped), and rewrites the file only when at least one event was
appended. -/

/-- The ids of the stored dicts (the Python set
`{event_data.get('id') for event_data in current_events_data}`; only
membership is used, so a list models it). -/
def storedIds (data : List EventDict) : List String := data.map (·.id)

/-- The `for event in new_events` loop of `EventStorage.save_events`:
threads the document, the id set and `added_count`. -/
def saveLoop : List Event → List EventDict → List String → Nat →
    List EventDict × List String × Nat
  | [], data, ids, c => (data, ids, c)
  | e :: rest, data, ids, c =>
    if e.id ∉ ids then
      saveLoop rest (data ++ [e.to_dict]) (ids ++ [e.id]) (c + 1)
    else
      saveLoop rest data ids c

/-- `EventStorage.save_events`: returns the document on disk after the call
and whether the file was rewritten.  An empty input returns immediately; a
rewrite happens only when `added_count > 0`. -/
def saveEvents (stored : List EventDict) (new : List Event) :
    List EventDict × Bool :=
  if new = [] then (stored, false)
  else
    let r := saveLoop new stored (storedIds stored) 0
    if 0 < r.2.2 then (r.1, true) else (stored, false)

/-! ### Queries (`EventStorage.get_events`)

The filter dict carries up to three optional predicates; the handler passes
`min_date`/`max_date` as Python `date` values.  Python truthiness: a `None`
or empty-string `event_type` filter is skipped, a `date` value is always
truthy. -/

/-- The filter dictionary accepted by `get_events`. -/
structure Filters where
  event_type : Option String
  min_date : Option DateD
  max_date : Option DateD
deriving DecidableEq, Repr

/-- The per-event `match` computation of the `get_events` filter loop:
starts `True` and is cleared by each failing predicate (a conjunction). -/
def eventMatches (f : Filters) (e : Event) : Bool :=
  let m1 := match f.event_type with
    | some ft => if ft ≠ "" ∧ e.event_type ≠ some ft then false else true
    | none => true
  let m2 := match f.min_date with
    | some lo => match e.date with
      | none => false
      | some d => if DateD.lt d.dateOf lo then false else true
    | none => true
  let m3 := match f.max_date with
    | some hi => match e.date with
      | none => false
      | some d => if DateD.lt hi d.dateOf then false else true
    | none => true
  m1 && m2 && m3

/-- `EventStorage.get_events`: loads all dicts, recreates `Event` objects
(a failing `from_dict` raises, modelled by `none`), then filters when a
filter dict was given. -/
def getEvents (stored : List EventDict) (filters : Option Filters) :
    Option (List Event) := do
  let events ← stored.mapM Event.from_dict
  match filters with
  | some f => pure (events.filter (eventMatches f))
  | none => pure events

/-! ### The retention sweep (`EventStorage.remove_old_events`)

`cutoff_date = datetime.utcnow() - timedelta(days=days_old)`; the current
UTC time is an input here.  The day subtraction uses proleptic-Gregorian
day arithmetic (civil-from-days / days-from-civil).

The kept/removed test is `event.date is None or event.date >= cutoff_date.date()`.
In CPython an order comparison between a `datetime.datetime` and a
`datetime.date` raises `TypeError` (`_cmperror` in `Lib/datetime.py`): the
comparison is modelled by `pyGeDatetimeDate`, which always raises. -/

/-- Days since the civil epoch 1970-01-01 (Hinnant's `days_from_civil`). -/
def DateD.toRD (d : DateD) : Int :=
  let y : Int := if d.month ≤ 2 then (d.year : Int) - 1 else (d.year : Int)
  let era : Int := (if 0 ≤ y then y else y - 399) / 400
  let yoe : Int := y - era * 400
  let mp : Int := if 2 < d.month then (d.month : Int) - 3 else (d.month : Int) + 9
  let doy : Int := (153 * mp + 2) / 5 + (d.day : Int) - 1
  let doe : Int := yoe * 365 + yoe / 4 - yoe / 100 + doy
  era * 146097 + doe - 719468

/-- Civil date from days since 1970-01-01 (Hinnant's `civil_from_days`). -/
def rdToDate (z0 : Int) : DateD :=
  let z : Int := z0 + 719468
  let era : Int := (if 0 ≤ z then z else z - 146096) / 146097
  let doe : Int := z - era * 146097
  let yoe : Int := (doe - doe / 1460 + doe / 36524 - doe / 146096) / 365
  let y : Int := yoe + era * 400
  let doy : Int := doe - (365 * yoe + yoe / 4 - yoe / 100)
  let mp : Int := (5 * doy + 2) / 153
  let d : Int := doy - (153 * mp + 2) / 5 + 1
  let m : Int := if mp < 10 then mp + 3 else mp - 9
  let y' : Int := if m ≤ 2 then y + 1 else y
  ⟨y'.toNat, m.toNat, d.toNat⟩

/-- `datetime - timedelta(days=n)`: shifts the calendar date, keeps the
clock fields. -/
def DateTime.subDays (t : DateTime) (n : Nat) : DateTime :=
  let d := rdToDate (t.dateOf.toRD - (n : Int))
  ⟨d.year, d.month, d.day, t.hour, t.minute, t.second, t.microsecond⟩

/-- CPython's order comparison `datetime >= date`: `datetime.__ge__` falls
into `_cmperror` when the other operand is a `date` that is not a
`datetime`, so it raises `TypeError` for every pair of values. -/
def pyGeDatetimeDate (_ : DateTime) (_ : DateD) : Except Unit Bool :=
  .error ()

/-- The `for event_data in current_events_data` loop of
`remove_old_events`: keeps undated events, and evaluates
`event.date >= cutoff_date.date()` (which raises) for dated ones.  Returns
the kept dicts and the removed count. -/
def removeLoop (cutoff : DateD) :
    List EventDict → Except Unit (List EventDict × Nat)
  | [] => .ok ([], 0)
  | d :: rest => do
    let e ← match Event.from_dict d with
      | some e => Except.ok e
      | none => Except.error ()
    match e.date with
    | none => do
      let (k, c) ← removeLoop cutoff rest
      pure (d :: k, c)
    | some dt => do
      let b ← pyGeDatetimeDate dt cutoff
      if b then do
        let (k, c) ← removeLoop cutoff rest
        pure (d :: k, c)
      else do
        let (k, c) ← removeLoop cutoff rest
        pure (k, c + 1)

/-- `EventStorage.remove_old_events`: computes the cutoff from the current
UTC time, runs the loop, and rewrites the file only when something was
removed.  Returns the document after the call and whether it was
rewritten, or the raised exception. -/
def removeOldEvents (stored : List EventDict) (daysOld : Nat)
    (now : DateTime) : Except Unit (List EventDict × Bool) := do
  let cutoff := (now.subDays daysOld).dateOf
  let (kept, removed) ← removeLoop cutoff stored
  if 0 < removed then pure (kept, true) else pure (stored, false)

/-! ## Per-source selection (`events_command`, `src/telegram_bot/handlers.py`)

The handler groups the queried events by the `www.`-stripped netloc of
`source_url` (events with an empty `source_url` go to the `"unknown"`
group), sorts each group by date descending (an absent date sorts as
`datetime.min`), takes the first two of each group, and sorts the combined
result by date descending again. -/

/-- Python `str.replace`: replaces every non-overlapping occurrence of the
(non-empty) pattern, scanning left to right.  Fuelled so that it reduces in
the kernel; the fuel is the length of the string, enough for every step to
consume at least one character. -/
def pyReplaceGo (pat rep : List Char) : Nat → List Char → List Char
  | 0, l => l
  | _ + 1, [] => []
  | fuel + 1, c :: rest =>
    if pat.isPrefixOf (c :: rest) then
      rep ++ pyReplaceGo pat rep fuel ((c :: rest).drop pat.length)
    else
      c :: pyReplaceGo pat rep fuel rest

/-- Python `s.replace(pat, rep)` for a non-empty pattern. -/
def pyReplace (s pat rep : String) : String :=
  String.mk (pyReplaceGo pat.data rep.data s.data.length s.data)

/-- The netloc terminator characters of `urllib.parse`. -/
def netlocEnd (c : Char) : Bool := c = '/' || c = '?' || c = '#'

/-- Characters after the first `:` of the input, if any. -/
def afterColon : List Char → Option (List Char)
  | [] => none
  | ':' :: rest => some rest
  | _ :: rest => afterColon rest

/-- `urlparse(url).netloc` for the URL shapes the crawler produces: the
host part follows a `//` that stands at the start or right after the
scheme's `:`, and runs to the first `/`, `?` or `#`; a URL with no `//`
has an empty netloc. -/
def urlNetloc (url : String) : String :=
  let l := url.data
  if l.take 2 = ['/', '/'] then String.mk ((l.drop 2).takeWhile (!netlocEnd ·))
  else match afterColon l with
    | some r =>
      if r.take 2 = ['/', '/'] then
        String.mk ((r.drop 2).takeWhile (!netlocEnd ·))
      else ""
    | none => ""

/-- The grouping key of one event: `"unknown"` for a falsy (empty)
`source_url`, else the netloc with every `"www."` removed
(`domain.replace("www.", "")`).  The handler's `except` branch (also
`"unknown"`) is unreachable here because the parse is total. -/
def domainKey (e : Event) : String :=
  if e.source_url = "" then "unknown"
  else pyReplace (urlNetloc e.source_url) "www." ""

/-- `defaultdict(list)` update: append to the entry of `k`, creating it at
the end in insertion order. -/
def addToGroups (gs : List (String × List Event)) (k : String) (e : Event) :
    List (String × List Event) :=
  match gs with
  | [] => [(k, [e])]
  | (k', es) :: rest =>
    if k' = k then (k', es ++ [e]) :: rest
    else (k', es) :: addToGroups rest k e

/-- The `events_by_source` dict of `events_command`. -/
def groupBySource (events : List Event) : List (String × List Event) :=
  events.foldl (fun gs e => addToGroups gs (domainKey e) e) []

/-- The sort key `x.date if x.date else datetime.min` as a number. -/
def sortKeyOf (e : Event) : Nat := (e.date.getD dtMin).key

/-- `sort(key=..., reverse=True)`: descending by date key. -/
def dateDesc (a b : Event) : Prop := sortKeyOf b ≤ sortKeyOf a

instance : DecidableRel dateDesc := fun a b =>
  inferInstanceAs (Decidable (sortKeyOf b ≤ sortKeyOf a))

/-- The group-sort-take-resort selection of `events_command`, with the
per-source cap as a parameter (the handler hardcodes `[:2]`). -/
def selectPerSource (cap : Nat) (events : List Event) : List Event :=
  let groups := groupBySource events
  let final := groups.flatMap (fun g => (List.insertionSort dateDesc g.2).take cap)
  List.insertionSort dateDesc final

/-- The selection exactly as `events_command` performs it (cap 2). -/
def eventsCommandSelect (events : List Event) : List Event :=
  selectPerSource 2 events

/-! ## Caption formatting (`format_event_caption`,
`src/tourist_events/telegram_bot/formatters.py`)

The caption is date + title + description-blockquote + source, each segment
HTML-escaped where the code escapes it, joined by blank lines, with the
1024-character truncation logic of the source. -/

/-- `html.escape` (with its default `quote=True`) on one character. -/
def escC (c : Char) : List Char :=
  if c = '&' then "&amp;".data
  else if c = '<' then "&lt;".data
  else if c = '>' then "&gt;".data
  else if c = '"' then "&quot;".data
  else if c = '\'' then "&#x27;".data
  else [c]

/-- `html.escape` on a string (the sequential replaces of `html.escape`
agree with this per-character map because `&` is replaced first). -/
def htmlEscape (s : String) : String := String.mk (s.data.flatMap escC)

/-- `strftime('%d.%m.%Y')`. -/
def strftimeDMY (t : DateTime) : String :=
  String.mk (pad2 t.day ++ '.' :: pad2 t.month ++ '.' :: pad4 t.year)

/-- Python string slice `s[:n]` for `n ≥ 0`. -/
def strTake (s : String) (n : Nat) : String := String.mk (s.data.take n)

/-- `"\n\n".join(parts)`. -/
def joinSep : List String → String
  | [] => ""
  | [s] => s
  | s :: t :: rest => s ++ "\n\n" ++ joinSep (t :: rest)

/-- The `date_str` segment: the monospace date, or empty when absent. -/
def dateSeg (e : Event) : String :=
  match e.date with
  | some d => "<code>" ++ strftimeDMY d ++ "</code>"
  | none => ""

/-- The `title_str` segment: the bold escaped title, or empty when the
title is falsy. -/
def titleSeg (e : Event) : String :=
  if e.title = "" then "" else "<b>" ++ htmlEscape e.title ++ "</b>"

/-- The `desc_content` value: the English summary when truthy, else the
description, with the placeholder when both are falsy. -/
def descContent (e : Event) : String :=
  let c := match e.summary_en with
    | some s => if s = "" then e.description else s
    | none => e.description
  if c = "" then "No description available." else c

/-- The `desc_str` segment: the escaped description in a blockquote. -/
def descSeg (e : Event) : String :=
  "<blockquote>" ++ htmlEscape (descContent e) ++ "</blockquote>"

/-- The `source_str` segment, or empty when `source_url` is falsy. -/
def sourceSeg (e : Event) : String :=
  if e.source_url = "" then ""
  else "Source: <code>" ++ htmlEscape e.source_url ++ "</code>"

/-- `caption_parts`/`caption_text`: the non-empty segments joined by blank
lines, with the given description segment. -/
def captionWith (e : Event) (desc : String) : String :=
  joinSep ([dateSeg e, titleSeg e, desc, sourceSeg e].filter (· ≠ ""))

/-- The caption before any truncation. -/
def rawCaption (e : Event) : String := captionWith e (descSeg e)

/-- `format_event_caption`: returns `""` when the title is missing; builds
the caption; past 1024 characters, truncates the description to
`1024 - overhead - 3` characters (clamped at zero) plus `"..."`, rebuilds,
and as a final safeguard hard-cuts the rebuilt caption to its first 1021
characters plus `"..."` when it still exceeds 1024. -/
def formatEventCaption (e : Event) : String :=
  if titleSeg e = "" then ""
  else
    let captionText := rawCaption e
    if 1024 < captionText.length then
      let overhead : Int := (captionText.length : Int) - (descContent e).length
      let maxDescLen : Int := 1024 - overhead - 3
      let m : Nat := (if maxDescLen < 0 then 0 else maxDescLen).toNat
      let truncated := strTake (descContent e) m ++ "..."
      let descStr2 := "<blockquote>" ++ htmlEscape truncated ++ "</blockquote>"
      let cap2 := captionWith e descStr2
      if 1024 < cap2.length then strTake cap2 1021 ++ "..." else cap2
    else captionText

/-! ## Record building

`BaseEventSpider.create_event_item` (`src/crawler/spiders/base_spider.py`)
turns the raw field bag into an `EventItem`, rejecting candidates whose
stripped title or source URL is empty; `EventProcessor.process_event`
(`src/tourist_events/processor/event_processor.py`) turns an item into an
`Event`, with the OpenAI collaborators and the date extractor as function
parameters and the identity data (`uuid4()`, `utcnow()`) as inputs. -/

/-- A raw field bag as the spiders extract it: `data.get(...)` may yield
`None` for any field. -/
structure RawData where
  title : Option String
  description : Option String
  date_text : Option String
  image_url : Option String
  source_url : Option String
deriving DecidableEq, Repr

/-- Python `str.strip()`: drop leading and trailing whitespace. -/
def pyStrip (s : String) : String :=
  String.mk
    (((s.data.dropWhile Char.isWhitespace).reverse.dropWhile
        Char.isWhitespace).reverse)

/-- `x.strip() if x else ''`: a falsy (absent or empty) value becomes
`''`, a truthy string is stripped. -/
def stripOrEmpty : Option String → String
  | some s => if s = "" then "" else pyStrip s
  | none => ""

/-- The Scrapy `EventItem` (`src/crawler/items.py`), with all five fields
populated as `create_event_item` populates them. -/
structure EventItem where
  title : String
  description : String
  date_text : String
  image_url : String
  source_url : String
deriving DecidableEq, Repr

/-- `BaseEventSpider.create_event_item`: strips every field and rejects
the item when the stripped title or source URL is empty. -/
def createEventItem (data : RawData) : Option EventItem :=
  let item : EventItem :=
    { title := stripOrEmpty data.title
      description := stripOrEmpty data.description
      date_text := stripOrEmpty data.date_text
      image_url := stripOrEmpty data.image_url
      source_url := stripOrEmpty data.source_url }
  if item.title = "" ∨ item.source_url = "" then none else some item

/-- `EventProcessor.process_event`: re-strips the textual fields, rejects a
missing title, runs the summary, date and event-type collaborators
(`summarize`/`classify` model the OpenAI client, both skipped — returning
`none` — when the client is absent; `extract` models
`DateExtractor.extract_date`), and assembles the `Event`.  `freshId` and
`now` stand for the `uuid4()` and `utcnow()` defaults of the dataclass. -/
def processEvent (summarize classify : String → Option String)
    (extract : String → Option DateTime) (freshId : String)
    (now : DateTime) (item : EventItem) : Option Event :=
  let title := pyStrip item.title
  let rawDescription := pyStrip item.description
  let dateText := pyStrip item.date_text
  let imageUrl := pyStrip item.image_url
  if title = "" then none
  else
    let englishSummary := summarize rawDescription
    let processedDescription := rawDescription
    let extractedDate := extract dateText
    let eventType := classify (title ++ " " ++ rawDescription)
    some
      { title := title
        description := processedDescription
        summary_en := englishSummary
        date := extractedDate
        image_url := if imageUrl = "" then none else some imageUrl
        source_url := item.source_url
        event_type := some (match eventType with
          | some t => if t = "" then "Unknown" else t
          | none => "Unknown")
        id := freshId
        created_at := now }

/-- The record-building pipeline as `TouristEventsPipeline.process_item`
composes it: the spider's item construction followed by the processor. -/
def buildRecord (summarize classify : String → Option String)
    (extract : String → Option DateTime) (freshId : String)
    (now : DateTime) (data : RawData) : Option Event :=
  (createEventItem data).bind (processEvent summarize classify extract freshId now)

/-! ## Date extraction (`DateExtractor.extract_date`,
`src/processor/date_extractor.py`)

The input may be any Python value (`None`, a non-string, a string); the
`dateparser.search.search_dates` collaborator may return `None`, a list of
`(substring, value)` pairs whose values are datetimes or plain dates, or
raise — all three modelled through its `Except` result type. -/

/-- A Python value passed to `extract_date`: `None`, a string, or some
non-string object (the `12345` of the module's own test list). -/
inductive PyVal where
  | pyNone : PyVal
  | pyStr : String → PyVal
  | pyInt : Int → PyVal
deriving DecidableEq, Repr

/-- Python truthiness of the input (`not text`). -/
def PyVal.falsy : PyVal → Bool
  | .pyNone => true
  | .pyStr s => s = ""
  | .pyInt n => n = 0

/-- `isinstance(text, str)`. -/
def PyVal.isStr : PyVal → Bool
  | .pyStr _ => true
  | _ => false

/-- A value found by `search_dates`: `dateparser` may return a full
datetime or a bare date. -/
inductive FoundDate where
  | dt : DateTime → FoundDate
  | bare : DateD → FoundDate
deriving DecidableEq, Repr

/-- `datetime.combine(d, datetime.min.time())`: the handling of a bare
date result. -/
def FoundDate.toDatetime : FoundDate → DateTime
  | .dt t => t
  | .bare d => ⟨d.year, d.month, d.day, 0, 0, 0, 0⟩

/-- `DateExtractor.extract_date`.  Returns `none` for falsy or non-string
input; otherwise calls `search_dates` inside `try`: a raised exception
(`Except.error`) is caught and becomes `none`, a falsy result (`None` or
`[]`) becomes `none`, and the first found pair's value is returned
(combined to a datetime when it is a bare date).  The function is total:
no input or collaborator behaviour raises to the caller. -/
def extractDate
    (searchDates : String → Except Unit (Option (List (String × FoundDate))))
    (text : PyVal) : Option DateTime :=
  if text.falsy || !text.isStr then none
  else match text with
    | .pyStr s =>
      match searchDates s with
      | .error _ => none
      | .ok none => none
      | .ok (some []) => none
      | .ok (some ((_, f) :: _)) => some f.toDatetime
    | _ => none

/-! ## Concurrency of `save_events`

`EventStorage.save_events` calls `self._load_events()` and
`self._save_events(...)`; `threading.Lock` is acquired inside each of those
two helpers and released when they return, so the file read and the file
write are each atomic, but the lock is NOT held across the whole
load-mutate-write sequence.  We model two concurrent `save_events` calls
as two threads whose atomic steps are exactly the lock-protected file
operations: `load` (read the document into thread-local state) and `write`
(run the in-memory mutation on the loaded snapshot and rewrite the file if
anything was appended).  A schedule is the order in which the threads take
their steps; steps that are not enabled do nothing. -/

/-- One in-flight `save_events` call: its input batch, the snapshot its
`_load_events` returned (if taken yet), and whether it has finished. -/
structure SaveThread where
  input : List Event
  loaded : Option (List EventDict)
  done : Bool
deriving DecidableEq, Repr

/-- The shared store file plus the two in-flight calls. -/
structure StoreSys where
  file : List EventDict
  t1 : SaveThread
  t2 : SaveThread
deriving DecidableEq, Repr

/-- A scheduled step: which thread acts (it performs its next atomic file
operation under the store lock). -/
inductive Step where
  | load1 | write1 | load2 | write2
deriving DecidableEq, Repr

/-- The mutate-and-maybe-write part of `save_events` applied to a loaded
snapshot: the document that ends up on disk given the current file
contents (unchanged when nothing was appended, because no write happens). -/
def writeBack (file snapshot : List EventDict) (input : List Event) :
    List EventDict :=
  if input = [] then file
  else
    let r := saveLoop input snapshot (storedIds snapshot) 0
    if 0 < r.2.2 then r.1 else file

/-- One atomic step of the two-call system. -/
def stepSys (s : StoreSys) : Step → StoreSys
  | .load1 =>
    if s.t1.loaded = none ∧ ¬s.t1.done then
      { s with t1 := { s.t1 with loaded := some s.file } } else s
  | .write1 =>
    match s.t1.loaded with
    | some snap =>
      if ¬s.t1.done then
        { s with file := writeBack s.file snap s.t1.input
                 t1 := { s.t1 with done := true } }
      else s
    | none => s
  | .load2 =>
    if s.t2.loaded = none ∧ ¬s.t2.done then
      { s with t2 := { s.t2 with loaded := some s.file } } else s
  | .write2 =>
    match s.t2.loaded with
    | some snap =>
      if ¬s.t2.done then
        { s with file := writeBack s.file snap s.t2.input
                 t2 := { s.t2 with done := true } }
      else s
    | none => s

/-- Run a schedule from an initial system state. -/
def runSched (s : StoreSys) : List Step → StoreSys
  | [] => s
  | st :: rest => runSched (stepSys s st) rest

/-- The initial state: a file and the two pending batches. -/
def initSys (file : List EventDict) (in1 in2 : List Event) : StoreSys :=
  ⟨file, ⟨in1, none, false⟩, ⟨in2, none, false⟩⟩

/-- The property the spec demands of concurrent saves: under every
schedule that completes both calls, no record saved by either call is
missing from the final document. -/
def NoLostUpdate (file : List EventDict) (in1 in2 : List Event) : Prop :=
  ∀ sched : List Step,
    (runSched (initSys file in1 in2) sched).t1.done →
    (runSched (initSys file in1 in2) sched).t2.done →
    ∀ e : Event, (e ∈ in1 ∨ e ∈ in2) →
      e.id ∈ storedIds (runSched (initSys file in1 in2) sched).file

/-- The category predicate of a filter dict, as the code tests it: skipped
when absent or empty, otherwise an equality with the record's type. -/
def categoryPasses (f : Filters) (e : Event) : Prop :=
  ∀ t, f.event_type = some t → t = "" ∨ e.event_type = some t

instance (f : Filters) (e : Event) : Decidable (categoryPasses f e) := by
  unfold categoryPasses; infer_instance

/-- Every entry of the grouping dict is a non-empty list of events whose
key is their own domain key. -/
def GroupsOk (gs : List (String × List Event)) : Prop :=
  ∀ p ∈ gs, p.2 ≠ [] ∧ ∀ e ∈ p.2, domainKey e = p.1

/-- The spec's "5 records from source A (distinct dates) and 1 from source
B" example, with `www.`-prefixed URLs for A to exercise the
`"www."`-stripping of the grouping key. -/
def exampleC4 : List Event :=
  [{ title := "A1", description := "", date := some ⟨2026, 10, 1, 0, 0, 0, 0⟩,
     image_url := none, source_url := "https://www.a.com/1",
     event_type := none, summary_en := none, id := "a1",
     created_at := ⟨2026, 9, 1, 0, 0, 0, 0⟩ },
   { title := "A2", description := "", date := some ⟨2026, 10, 2, 0, 0, 0, 0⟩,
     image_url := none, source_url := "https://www.a.com/2",
     event_type := none, summary_en := none, id := "a2",
     created_at := ⟨2026, 9, 1, 0, 0, 0, 0⟩ },
   { title := "A3", description := "", date := some ⟨2026, 10, 3, 0, 0, 0, 0⟩,
     image_url := none, source_url := "https://www.a.com/3",
     event_type := none, summary_en := none, id := "a3",
     created_at := ⟨2026, 9, 1, 0, 0, 0, 0⟩ },
   { title := "A4", description := "", date := some ⟨2026, 10, 4, 0, 0, 0, 0⟩,
     image_url := none, source_url := "https://www.a.com/4",
     event_type := none, summary_en := none, id := "a4",
     created_at := ⟨2026, 9, 1, 0, 0, 0, 0⟩ },
   { title := "A5", description := "", date := some ⟨2026, 10, 5, 0, 0, 0, 0⟩,
     image_url := none, source_url := "https://www.a.com/5",
     event_type := none, summary_en := none, id := "a5",
     created_at := ⟨2026, 9, 1, 0, 0, 0, 0⟩ },
   { title := "B1", description := "", date := some ⟨2026, 10, 3, 0, 0, 0, 0⟩,
     image_url := none, source_url := "https://b.com/1",
     event_type := none, summary_en := none, id := "b1",
     created_at := ⟨2026, 9, 1, 0, 0, 0, 0⟩ }]

/-- `seg` occurs verbatim inside `s`. -/
def containsSeg (s seg : String) : Prop := ∃ pre post, s = pre ++ seg ++ post

/-- The clamped description budget `max_desc_len` of
`format_event_caption` past the 1024 ceiling, as a standalone value. -/
def bigM (e : Event) : Nat :=
  (if (1024 - (((rawCaption e).length : Int) -
        ((descContent e).length : Int)) - 3) < 0 then 0
   else 1024 - (((rawCaption e).length : Int) -
        ((descContent e).length : Int)) - 3).toNat

/-- The rebuilt description segment: the description cut to the budget,
with the trailing ellipsis, escaped, in a blockquote. -/
def truncDescSeg (e : Event) : String :=
  "<blockquote>" ++ htmlEscape (strTake (descContent e) (bigM e) ++ "...") ++
    "</blockquote>"

/-- The rebuilt caption, description segment replaced, all other segments
unchanged. -/
def cap2Of (e : Event) : String := captionWith e (truncDescSeg e)

/-- An event whose title alone is 1100 characters: the non-description
segments exceed the 1021-character budget, so the safeguard hard-cut
fires. -/
def exC5long : Event :=
  { title := String.mk (List.replicate 1100 'A'), description := "D",
    date := some ⟨2026, 10, 12, 0, 0, 0, 0⟩, image_url := none,
    source_url := "https://a.com/e", event_type := none,
    summary_en := none, id := "long-title",
    created_at := ⟨2026, 1, 1, 0, 0, 0, 0⟩ }

/-- An event pushed past the ceiling by its description only. -/
def exC5desc : Event :=
  { title := "T", description := String.mk (List.replicate 2000 'D'),
    date := some ⟨2026, 10, 12, 0, 0, 0, 0⟩, image_url := none,
    source_url := "https://a.com/e", event_type := none,
    summary_en := none, id := "long-desc",
    created_at := ⟨2026, 1, 1, 0, 0, 0, 0⟩ }

/-! ### Round-trip of the ISO encoding -/

theorem digitVal_digitChar {d : Nat} (h : d < 10) :
    digitVal (Nat.digitChar d) = some d := by
  interval_cases d <;> decide

theorem read2_pad2 {n : Nat} (h : n < 100) :
    ∀ {a b : Char}, pad2 n = [a, b] → read2 a b = some n := by
  intro a b hp
  simp only [pad2, List.cons.injEq] at hp
  obtain ⟨ha, hb, -⟩ := hp
  subst ha; subst hb
  rw [read2, digitVal_digitChar (Nat.mod_lt _ (by norm_num)),
      digitVal_digitChar (Nat.mod_lt _ (by norm_num))]
  simp only [Option.bind_eq_bind, Option.some_bind, Option.pure_def, Option.some.injEq]
  omega

theorem read4_pad4 {n : Nat} (h : n < 10000) :
    ∀ {a b c d : Char}, pad4 n = [a, b, c, d] → read4 a b c d = some n := by
  intro a b c d hp
  simp only [pad4, List.cons.injEq] at hp
  obtain ⟨ha, hb, hc, hd, -⟩ := hp
  subst ha; subst hb; subst hc; subst hd
  rw [read4, read2, read2,
      digitVal_digitChar (Nat.mod_lt _ (by norm_num)),
      digitVal_digitChar (Nat.mod_lt _ (by norm_num)),
      digitVal_digitChar (Nat.mod_lt _ (by norm_num)),
      digitVal_digitChar (Nat.mod_lt _ (by norm_num))]
  simp only [Option.bind_eq_bind, Option.some_bind, Option.pure_def, Option.some.injEq]
  omega

theorem read6_pad6 (n : Nat) (h : n < 1000000) :
    ∀ {a b c d e f : Char}, pad6 n = [a, b, c, d, e, f] →
      read6 a b c d e f = some n := by
  intro a b c d e f hp
  simp only [pad6, List.cons.injEq] at hp
  obtain ⟨ha, hb, hc, hd, he, hf, -⟩ := hp
  subst ha; subst hb; subst hc; subst hd; subst he; subst hf
  rw [read6, read4, read2, read2, read2,
      digitVal_digitChar (Nat.mod_lt _ (by norm_num)),
      digitVal_digitChar (Nat.mod_lt _ (by norm_num)),
      digitVal_digitChar (Nat.mod_lt _ (by norm_num)),
      digitVal_digitChar (Nat.mod_lt _ (by norm_num)),
      digitVal_digitChar (Nat.mod_lt _ (by norm_num)),
      digitVal_digitChar (Nat.mod_lt _ (by norm_num))]
  simp only [Option.bind_eq_bind, Option.some_bind, Option.pure_def, Option.some.injEq]
  omega

/-- Parsing the printed ISO form of a valid datetime recovers it. -/
theorem fromisoformat_isoformat {t : DateTime} (h : t.Valid) :
    fromisoformat t.isoformat = some t := by
  obtain ⟨h1, h2, h3, h4, h5, h6, h7, h8, h9, h10⟩ := h
  have hy' : t.year < 10000 := by omega
  have hmo' : t.month < 100 := by omega
  have hd' : t.day < 100 := by omega
  have hh' : t.hour < 100 := by omega
  have hmi' : t.minute < 100 := by omega
  have hs' : t.second < 100 := by omega
  rw [DateTime.isoformat, fromisoformat]
  simp only [DateTime.isoChars, pad4, pad2, pad6]
  by_cases hu : t.microsecond = 0 <;>
    simp only [hu, reduceIte] <;>
    simp only [List.cons_append, List.nil_append, List.append_nil] <;>
    rw [read4_pad4 hy' (by simp [pad4]), read2_pad2 hmo' (by simp [pad2]),
        read2_pad2 hd' (by simp [pad2]), read2_pad2 hh' (by simp [pad2]),
        read2_pad2 hmi' (by simp [pad2]), read2_pad2 hs' (by simp [pad2])]
  · simp only [Option.pure_def, Option.bind_eq_bind, Option.some_bind]
    rw [← hu]
  · rw [read6_pad6 t.microsecond (by omega) (by simp [pad6])]
    simp only [Option.pure_def, Option.bind_eq_bind, Option.some_bind]

/-- When every event of the batch has an id already in the id set, the loop
changes nothing. -/
theorem saveLoop_all_mem {l : List Event} {data : List EventDict}
    {ids : List String} {c : Nat} (h : ∀ e ∈ l, e.id ∈ ids) :
    saveLoop l data ids c = (data, ids, c) := by
  induction l with
  | nil => rfl
  | cons e rest ih =>
    have he : e.id ∈ ids := h e (List.mem_cons_self ..)
    rw [saveLoop, if_neg (by simpa using he)]
    exact ih fun x hx => h x (List.mem_cons_of_mem _ hx)

/-- Loop invariant for dedup: the id set tracks exactly the ids of the
document, and stays duplicate-free. -/
theorem saveLoop_nodup {l : List Event} {data : List EventDict}
    {ids : List String} {c : Nat} (hids : ids = storedIds data)
    (hnd : ids.Nodup) :
    (saveLoop l data ids c).2.1 = storedIds (saveLoop l data ids c).1 ∧
      (saveLoop l data ids c).2.1.Nodup := by
  induction l generalizing data ids c with
  | nil => exact ⟨hids, hnd⟩
  | cons e rest ih =>
    rw [saveLoop]
    by_cases hmem : e.id ∈ ids
    · rw [if_neg (by simpa using hmem)]
      exact ih hids hnd
    · rw [if_pos (by simpa using hmem)]
      refine ih ?_ ?_
      · simp [hids, storedIds, Event.to_dict]
      · simp [List.nodup_append, hnd, hmem]

/-! ## Theorems -/

/-- C1: for every stored collection and every batch of events whose ids all
already exist in the collection (including the empty batch), `save_events`
leaves the stored document unchanged and does not rewrite the backing file
(the rewrite flag is `false`).  In particular saving the same record twice
leaves the collection size unchanged after the second save. -/
theorem save_events_dedup_noop {stored : List EventDict} {new : List Event}
    (h : ∀ e ∈ new, e.id ∈ storedIds stored) :
    saveEvents stored new = (stored, false) := by
  rw [saveEvents]
  by_cases hn : new = []
  · rw [if_pos hn]
  · rw [if_neg hn, saveLoop_all_mem h]
    simp

/-- Witness for `save_events_dedup_noop`: a concrete store holding id
`"ev-1"` and a batch re-saving a record with that same id. -/
theorem save_events_dedup_noop_witness :
    saveEvents
      [{ id := "ev-1", title := "T", description := "D", date := none,
         image_url := none, source_url := "https://a.com/1",
         event_type := none, summary_en := none,
         created_at := "2024-01-01T00:00:00" }]
      [{ title := "T", description := "D", date := none, image_url := none,
         source_url := "https://a.com/1", event_type := none,
         summary_en := none, id := "ev-1",
         created_at := ⟨2024, 1, 1, 0, 0, 0, 0⟩ }] =
      ([{ id := "ev-1", title := "T", description := "D", date := none,
          image_url := none, source_url := "https://a.com/1",
          event_type := none, summary_en := none,
          created_at := "2024-01-01T00:00:00" }], false) :=
  save_events_dedup_noop (by decide)

/-- C10: `save_events` also deduplicates inside its input batch (later
occurrences of an id already appended are skipped), so a stored collection
with pairwise-distinct ids keeps pairwise-distinct ids after every save. -/
theorem save_events_preserves_nodup {stored : List EventDict}
    {new : List Event} (h : (storedIds stored).Nodup) :
    (storedIds (saveEvents stored new).1).Nodup := by
  rw [saveEvents]
  by_cases hn : new = []
  · rw [if_pos hn]; exact h
  · rw [if_neg hn]
    have hinv := saveLoop_nodup (l := new) (c := 0) rfl h
    by_cases hc : 0 < (saveLoop new stored (storedIds stored) 0).2.2
    · rw [if_pos hc]
      exact hinv.1 ▸ hinv.2
    · rw [if_neg hc]; exact h

/-- Witness for `save_events_preserves_nodup`: a batch that carries the
same fresh id twice against a one-record store; the saved document's ids
stay pairwise distinct. -/
theorem save_events_preserves_nodup_witness :
    (storedIds (saveEvents
      [{ id := "ev-1", title := "T", description := "D", date := none,
         image_url := none, source_url := "https://a.com/1",
         event_type := none, summary_en := none,
         created_at := "2024-01-01T00:00:00" }]
      [{ title := "U", description := "E", date := none, image_url := none,
         source_url := "https://b.com/1", event_type := none,
         summary_en := none, id := "ev-2",
         created_at := ⟨2024, 1, 2, 0, 0, 0, 0⟩ },
       { title := "V", description := "F", date := none, image_url := none,
         source_url := "https://b.com/2", event_type := none,
         summary_en := none, id := "ev-2",
         created_at := ⟨2024, 1, 3, 0, 0, 0, 0⟩ }]).1).Nodup :=
  save_events_preserves_nodup (by decide)

/-- A valid datetime's ISO string is never empty. -/
theorem isoformat_ne_empty (t : DateTime) : t.isoformat ≠ "" := by
  intro h
  have hdata := congrArg String.data h
  simp [DateTime.isoformat, DateTime.isoChars, pad4] at hdata

/-- C8: serialization round-trips: `from_dict (to_dict e)` succeeds and
returns an event equal to `e` on every field, for every event whose
datetime fields satisfy Python's representable-field bounds; an absent
`date` round-trips to an absent date (the `none` branch below), not to an
epoch value. -/
theorem from_dict_to_dict {e : Event}
    (hd : ∀ t, e.date = some t → t.Valid) (hc : e.created_at.Valid) :
    Event.from_dict e.to_dict = some e := by
  obtain ⟨title, description, date, image_url, source_url,
          event_type, summary_en, id, created_at⟩ := e
  simp only at hd hc
  cases date with
  | none =>
    simp [Event.to_dict, Event.from_dict, fromisoformat_isoformat hc]
  | some t =>
    have ht : t.Valid := hd t rfl
    simp [Event.to_dict, Event.from_dict, fromisoformat_isoformat hc,
          fromisoformat_isoformat ht, isoformat_ne_empty t]

/-- Witness for `from_dict_to_dict`: a fully-populated event with a
present date and its full round-trip. -/
theorem from_dict_to_dict_witness :
    Event.from_dict (Event.to_dict
      { title := "Summer Concert", description := "A great concert",
        date := some ⟨2024, 7, 15, 21, 0, 0, 0⟩,
        image_url := some "https://example.com/concert.jpg",
        source_url := "https://example.com/event-details",
        event_type := some "Concert", summary_en := some "Enjoy a concert",
        id := "test-123", created_at := ⟨2024, 5, 1, 12, 30, 5, 123456⟩ }) =
      some
      { title := "Summer Concert", description := "A great concert",
        date := some ⟨2024, 7, 15, 21, 0, 0, 0⟩,
        image_url := some "https://example.com/concert.jpg",
        source_url := "https://example.com/event-details",
        event_type := some "Concert", summary_en := some "Enjoy a concert",
        id := "test-123", created_at := ⟨2024, 5, 1, 12, 30, 5, 123456⟩ } :=
  from_dict_to_dict (by intro t h; cases h; decide) (by decide)

/-- A field that is absent or empty after trimming strips to the empty
string. -/
theorem stripOrEmpty_eq_empty {o : Option String}
    (h : o = none ∨ ∃ s, o = some s ∧ pyStrip s = "") : stripOrEmpty o = "" := by
  rcases h with h | ⟨s, rfl, hs⟩
  · rw [h]; rfl
  · rw [stripOrEmpty]
    by_cases he : s = "" <;> simp [he, hs]

/-- C2: for every raw field bag whose title is absent or empty after
trimming, or whose source reference is absent or empty after trimming, the
record-building pipeline (the spider's `create_event_item` followed by
`process_event`) returns no record, for every behaviour of the enrichment
and date collaborators and every fresh identity. -/
theorem build_rejects_missing_mandatory
    (summarize classify : String → Option String)
    (extract : String → Option DateTime) (freshId : String) (now : DateTime)
    {data : RawData}
    (h : (data.title = none ∨ ∃ s, data.title = some s ∧ pyStrip s = "") ∨
         (data.source_url = none ∨
           ∃ s, data.source_url = some s ∧ pyStrip s = "")) :
    buildRecord summarize classify extract freshId now data = none := by
  rw [buildRecord, createEventItem]
  rcases h with h | h
  · simp [stripOrEmpty_eq_empty h]
  · simp [stripOrEmpty_eq_empty h]

/-- Witness for `build_rejects_missing_mandatory`: a bag with a
whitespace-only title is rejected even though every other field is
present. -/
theorem build_rejects_missing_mandatory_witness :
    buildRecord (fun _ => some "summary") (fun _ => some "Concert")
      (fun _ => some ⟨2024, 7, 15, 0, 0, 0, 0⟩) "id-1" ⟨2024, 1, 1, 0, 0, 0, 0⟩
      { title := some "   ", description := some "desc",
        date_text := some "15/07/2024", image_url := some "https://a.com/i.jpg",
        source_url := some "https://a.com/e" } = none :=
  build_rejects_missing_mandatory _ _ _ _ _ (Or.inl (Or.inr ⟨"   ", rfl, by decide⟩))

/-- C6: the date resolver returns `none` (never an exception) on empty
text, `None`, non-string input, and whenever `search_dates` finds nothing
or raises; and `process_event` treats an unresolved date as an accepted
absent date — the record is still built, with `date = none` — rather than
rejecting the record. -/
theorem extract_date_unresolved_accepted
    (searchDates : String → Except Unit (Option (List (String × FoundDate))))
    (v : PyVal)
    (h : v = .pyNone ∨ v = .pyStr "" ∨ v.isStr = false ∨
         ∀ s, v = .pyStr s →
           searchDates s = .error () ∨ searchDates s = .ok none ∨
           searchDates s = .ok (some [])) :
    extractDate searchDates v = none ∧
    ∀ (summarize classify : String → Option String) (freshId : String)
      (now : DateTime) (item : EventItem), pyStrip item.title ≠ "" →
      ∃ ev, processEvent summarize classify (fun _ => none) freshId now item =
              some ev ∧ ev.date = none := by
  constructor
  · rcases v with _ | s | n
    · rfl
    · rcases h with h | h | h | h
      · simp at h
      · rw [h]; rfl
      · simp [PyVal.isStr] at h
      · rcases h s rfl with hs | hs | hs <;>
          · rw [extractDate]
            by_cases he : s = "" <;> simp [he, PyVal.falsy, PyVal.isStr, hs]
    · simp [extractDate, PyVal.falsy, PyVal.isStr]
  · intro summarize classify freshId now item htitle
    simp only [processEvent]
    rw [if_neg htitle]
    exact ⟨_, rfl, rfl⟩

/-- Witness for `extract_date_unresolved_accepted`: the resolver on the
module's own test input `"Nessuna data qui"` with a finder that finds
nothing, and a concrete item whose record is still built with an absent
date. -/
theorem extract_date_unresolved_accepted_witness :
    extractDate (fun _ => .ok none) (.pyStr "Nessuna data qui") = none ∧
    ∃ ev, processEvent (fun _ => none) (fun _ => none) (fun _ => none) "id-1"
            ⟨2024, 1, 1, 0, 0, 0, 0⟩
            { title := "Festival", description := "d", date_text := "Nessuna data qui",
              image_url := "", source_url := "https://a.com/e" } = some ev ∧
          ev.date = none := by
  have h := extract_date_unresolved_accepted (fun _ => .ok none)
    (.pyStr "Nessuna data qui")
    (Or.inr (Or.inr (Or.inr (fun s _ => Or.inr (Or.inl rfl)))))
  exact ⟨h.1, h.2 (fun _ => none) (fun _ => none) "id-1" ⟨2024, 1, 1, 0, 0, 0, 0⟩
    { title := "Festival", description := "d", date_text := "Nessuna data qui",
      image_url := "", source_url := "https://a.com/e" } (by decide)⟩

/-- C3 (code bug): the retention sweep crashes instead of evicting.  On a
store holding a single dated record (date `2024-01-01T00:00:00`), a 30-day
threshold and a concrete "now", `remove_old_events` raises: the kept/removed
test `event.date >= cutoff_date.date()` is a CPython order comparison
between a `datetime` and a `date`, which raises `TypeError` for every pair
of values, so no dated record is ever compared against the cutoff (the
claim's strictly-older/at-cutoff behaviour is the code's own stated intent
— "Compare date part only" — but is unreachable). -/
theorem remove_old_events_raises_on_dated_record :
    removeOldEvents
      [{ id := "ev-1", title := "Old Event", description := "Old Desc",
         date := some "2024-01-01T00:00:00", image_url := none,
         source_url := "https://a.com/old", event_type := none,
         summary_en := none, created_at := "2024-01-01T00:00:00" }]
      30 ⟨2026, 10, 12, 0, 0, 0, 0⟩ = .error () := rfl

/-- C7 counterexample: an undated record does NOT always match a query
that includes no date predicate.  With the one-record store below (record
type `"Festival"`, date null) and the filter
`{event_type := "Concert"}` — no min or max date —
`get_events` returns the empty list. -/
theorem get_events_undated_counterexample :
    (Filters.mk (some "Concert") none none).min_date = none ∧
    (Filters.mk (some "Concert") none none).max_date = none ∧
    (Event.from_dict
      { id := "ev-1", title := "T", description := "D", date := none,
        image_url := none, source_url := "https://a.com/1",
        event_type := some "Festival", summary_en := none,
        created_at := "2024-01-01T00:00:00" }).map Event.date =
      some none ∧
    getEvents
      [{ id := "ev-1", title := "T", description := "D", date := none,
         image_url := none, source_url := "https://a.com/1",
         event_type := some "Festival", summary_en := none,
         created_at := "2024-01-01T00:00:00" }]
      (some (Filters.mk (some "Concert") none none)) = some [] := by
  refine ⟨rfl, rfl, rfl, ?_⟩
  decide

/-- C7 (amended): for every undated record, any query with a min-date or
max-date predicate fails it; a query with no date predicate matches it
exactly when the category predicate — skipped if absent or empty, an
equality otherwise — passes; the predicates combine as a conjunction. -/
theorem get_events_undated_matching (f : Filters) (e : Event)
    (h : e.date = none) :
    (f.min_date ≠ none ∨ f.max_date ≠ none → eventMatches f e = false) ∧
    (f.min_date = none → f.max_date = none →
      (eventMatches f e = true ↔ categoryPasses f e)) := by
  constructor
  · intro hdate
    rw [eventMatches]
    rcases hdate with hmin | hmax
    · rcases hmin' : f.min_date with _ | lo
      · exact absurd hmin' hmin
      · simp [hmin', h]
    · rcases hmax' : f.max_date with _ | hi
      · exact absurd hmax' hmax
      · simp [hmax', h]
  · intro hmin hmax
    rw [eventMatches, hmin, hmax]
    rcases het : f.event_type with _ | ft
    · simp [categoryPasses, het]
    · by_cases hft : ft = ""
      · simp [categoryPasses, het, hft]
      · by_cases heq : e.event_type = some ft
        · simp [categoryPasses, het, hft, heq]
        · simp [categoryPasses, het, hft, heq]

/-- Witness for `get_events_undated_matching`: a concrete undated record
against a min-date query (fails) and against a matching category-only
query (matches). -/
theorem get_events_undated_matching_witness :
    eventMatches (Filters.mk none (some ⟨2026, 1, 1⟩) none)
      { title := "T", description := "D", date := none, image_url := none,
        source_url := "https://a.com/1", event_type := some "Festival",
        summary_en := none, id := "ev-1",
        created_at := ⟨2024, 1, 1, 0, 0, 0, 0⟩ } = false ∧
    eventMatches (Filters.mk (some "Festival") none none)
      { title := "T", description := "D", date := none, image_url := none,
        source_url := "https://a.com/1", event_type := some "Festival",
        summary_en := none, id := "ev-1",
        created_at := ⟨2024, 1, 1, 0, 0, 0, 0⟩ } = true := by
  constructor
  · exact (get_events_undated_matching _ _ rfl).1 (Or.inl (by decide))
  · exact (get_events_undated_matching _ _ rfl).2 rfl rfl |>.mpr (by decide)

/-- The loop's counter never decreases. -/
theorem saveLoop_count_mono (l : List Event) (data : List EventDict)
    (ids : List String) (c : Nat) : c ≤ (saveLoop l data ids c).2.2 := by
  induction l generalizing data ids c with
  | nil => exact Nat.le_refl c
  | cons e rest ih =>
    rw [saveLoop]
    by_cases hmem : e.id ∈ ids
    · rw [if_neg (by simpa using hmem)]; exact ih ..
    · rw [if_pos (by simpa using hmem)]
      exact Nat.le_trans (Nat.le_succ c) (ih ..)

/-- The loop's id set tracks the ids of its document (no
duplicate-freeness needed). -/
theorem saveLoop_ids_eq {l : List Event} {data : List EventDict}
    {ids : List String} {c : Nat} (hids : ids = storedIds data) :
    (saveLoop l data ids c).2.1 = storedIds (saveLoop l data ids c).1 := by
  induction l generalizing data ids c with
  | nil => exact hids
  | cons e rest ih =>
    rw [saveLoop]
    by_cases hmem : e.id ∈ ids
    · rw [if_neg (by simpa using hmem)]; exact ih hids
    · rw [if_pos (by simpa using hmem)]
      exact ih (by simp [hids, storedIds, Event.to_dict])

/-- The loop's id set only grows. -/
theorem saveLoop_ids_sub {l : List Event} {data : List EventDict}
    {ids : List String} {c : Nat} {x : String} (hx : x ∈ ids) :
    x ∈ (saveLoop l data ids c).2.1 := by
  induction l generalizing data ids c with
  | nil => exact hx
  | cons e rest ih =>
    rw [saveLoop]
    by_cases hmem : e.id ∈ ids
    · rw [if_neg (by simpa using hmem)]; exact ih hx
    · rw [if_pos (by simpa using hmem)]
      exact ih (List.mem_append_left _ hx)

/-- Every id of the input batch ends up in the loop's id set. -/
theorem saveLoop_input_mem {l : List Event} {data : List EventDict}
    {ids : List String} {c : Nat} {e : Event} (he : e ∈ l) :
    e.id ∈ (saveLoop l data ids c).2.1 := by
  induction l generalizing data ids c with
  | nil => cases he
  | cons a rest ih =>
    rw [saveLoop]
    by_cases hmem : a.id ∈ ids
    · rw [if_neg (by simpa using hmem)]
      rcases List.mem_cons.mp he with rfl | he'
      · exact saveLoop_ids_sub hmem
      · exact ih he'
    · rw [if_pos (by simpa using hmem)]
      rcases List.mem_cons.mp he with rfl | he'
      · exact saveLoop_ids_sub (List.mem_append_right _ (by simp))
      · exact ih he'

/-- When the loop appended nothing, every input id was already in the id
set it started from. -/
theorem saveLoop_count_eq {l : List Event} {data : List EventDict}
    {ids : List String} {c : Nat}
    (hc : (saveLoop l data ids c).2.2 = c) : ∀ e ∈ l, e.id ∈ ids := by
  induction l generalizing data ids c with
  | nil => intro e he; cases he
  | cons a rest ih =>
    intro e he
    by_cases hmem : a.id ∈ ids
    · rw [saveLoop, if_neg (by simpa using hmem)] at hc
      rcases List.mem_cons.mp he with rfl | he'
      · exact hmem
      · exact ih hc e he'
    · exfalso
      rw [saveLoop, if_pos (by simpa using hmem)] at hc
      have := saveLoop_count_mono rest (data ++ [a.to_dict])
        (ids ++ [a.id]) (c + 1)
      omega

/-- Ids are never lost by a save, and every id of the batch is present
afterwards. -/
theorem saveEvents_mem {stored : List EventDict} {new : List Event}
    {x : String}
    (h : x ∈ storedIds stored ∨ ∃ e ∈ new, e.id = x) :
    x ∈ storedIds (saveEvents stored new).1 := by
  rw [saveEvents]
  by_cases hn : new = []
  · rw [if_pos hn]
    rcases h with h | ⟨e, he, rfl⟩
    · exact h
    · rw [hn] at he; cases he
  · rw [if_neg hn]
    by_cases hc : 0 < (saveLoop new stored (storedIds stored) 0).2.2
    · rw [if_pos hc]
      have heq := saveLoop_ids_eq (l := new) (c := 0)
        (rfl : storedIds stored = storedIds stored)
      rw [← heq]
      rcases h with h | ⟨e, he, rfl⟩
      · exact saveLoop_ids_sub h
      · exact saveLoop_input_mem he
    · rw [if_neg hc]
      rcases h with h | ⟨e, he, rfl⟩
      · exact h
      · have h0 : (saveLoop new stored (storedIds stored) 0).2.2 = 0 := by
          omega
        exact saveLoop_count_eq h0 e he

/-- The write step of one thread, applied to its own up-to-date snapshot,
is exactly the document `save_events` leaves on disk. -/
theorem writeBack_self (file : List EventDict) (input : List Event) :
    writeBack file file input = (saveEvents file input).1 := by
  by_cases hn : input = []
  · simp [writeBack, saveEvents, hn]
  · rw [writeBack, if_neg hn, saveEvents, if_neg hn]
    by_cases hc : 0 < (saveLoop input file (storedIds file) 0).2.2
    · rw [if_pos hc, if_pos hc]
    · rw [if_neg hc, if_neg hc]

/-- C9 (amended): the store lock serializes each individual file load and
file write, but is released between the load and the write of
`save_events`; when the two calls do NOT interleave (the serial schedule
load₁-write₁-load₂-write₂), every record of both batches is present in the
final document. -/
theorem save_events_serial_no_loss (file : List EventDict)
    (in1 in2 : List Event) :
    ∀ e : Event, (e ∈ in1 ∨ e ∈ in2) →
      e.id ∈ storedIds (runSched (initSys file in1 in2)
        [.load1, .write1, .load2, .write2]).file := by
  intro e he
  have hrun : (runSched (initSys file in1 in2)
      [.load1, .write1, .load2, .write2]).file =
      writeBack (writeBack file file in1) (writeBack file file in1) in2 := by
    rfl
  rw [hrun, writeBack_self, writeBack_self]
  rcases he with he | he
  · exact saveEvents_mem (Or.inl (saveEvents_mem (Or.inr ⟨e, he, rfl⟩)))
  · exact saveEvents_mem (Or.inr ⟨e, he, rfl⟩)

/-- Witness for `save_events_serial_no_loss`: two one-record batches saved
serially against an empty store; both ids are on disk afterwards. -/
theorem save_events_serial_no_loss_witness :
    ("id-1" : String) ∈ storedIds (runSched (initSys []
      [{ title := "A", description := "", date := none, image_url := none,
         source_url := "https://a.com/1", event_type := none,
         summary_en := none, id := "id-1",
         created_at := ⟨2024, 1, 1, 0, 0, 0, 0⟩ }]
      [{ title := "B", description := "", date := none, image_url := none,
         source_url := "https://b.com/1", event_type := none,
         summary_en := none, id := "id-2",
         created_at := ⟨2024, 1, 2, 0, 0, 0, 0⟩ }])
      [.load1, .write1, .load2, .write2]).file :=
  save_events_serial_no_loss [] _ _
    { title := "A", description := "", date := none, image_url := none,
      source_url := "https://a.com/1", event_type := none,
      summary_en := none, id := "id-1",
      created_at := ⟨2024, 1, 1, 0, 0, 0, 0⟩ } (Or.inl (by simp))

/-- C9 counterexample: the lock does not cover the whole load-mutate-write
sequence, so there IS a lost update: with an empty store and two
single-record batches (ids `"id-1"`, `"id-2"`), the interleaved schedule
load₁-load₂-write₁-write₂ completes both calls yet leaves a final document
that does not contain `"id-1"` — thread 2's write silently erased thread
1's append, refuting the claimed whole-sequence mutual exclusion. -/
theorem save_events_lost_update :
    ¬ NoLostUpdate []
      [{ title := "A", description := "", date := none, image_url := none,
         source_url := "https://a.com/1", event_type := none,
         summary_en := none, id := "id-1",
         created_at := ⟨2024, 1, 1, 0, 0, 0, 0⟩ }]
      [{ title := "B", description := "", date := none, image_url := none,
         source_url := "https://b.com/1", event_type := none,
         summary_en := none, id := "id-2",
         created_at := ⟨2024, 1, 2, 0, 0, 0, 0⟩ }] := by
  intro h
  have := h [.load1, .load2, .write1, .write2] (by decide) (by decide)
    { title := "A", description := "", date := none, image_url := none,
      source_url := "https://a.com/1", event_type := none,
      summary_en := none, id := "id-1",
      created_at := ⟨2024, 1, 1, 0, 0, 0, 0⟩ } (Or.inl (by simp))
  revert this
  decide

/-- Appending an event under its own key preserves the grouping
invariant. -/
theorem groupsOk_addToGroups {gs : List (String × List Event)} {k : String}
    {e : Event} (h : GroupsOk gs) (hk : domainKey e = k) :
    GroupsOk (addToGroups gs k e) := by
  induction gs with
  | nil =>
    intro p hp
    rw [addToGroups] at hp
    rcases List.mem_singleton.mp hp with rfl
    exact ⟨by simp, by intro x hx; rcases List.mem_singleton.mp hx with rfl; exact hk⟩
  | cons g rest ih =>
    obtain ⟨k', es⟩ := g
    rw [addToGroups]
    by_cases hkk : k' = k
    · rw [if_pos hkk]
      intro p hp
      rcases List.mem_cons.mp hp with rfl | hp'
      · refine ⟨by simp, ?_⟩
        intro x hx
        rcases List.mem_append.mp hx with hx' | hx'
        · exact (h (k', es) (List.mem_cons_self ..)).2 x hx'
        · rcases List.mem_singleton.mp hx' with rfl
          rw [hk, hkk]
      · exact h p (List.mem_cons_of_mem _ hp')
    · rw [if_neg hkk]
      intro p hp
      rcases List.mem_cons.mp hp with rfl | hp'
      · exact h (k', es) (List.mem_cons_self ..)
      · exact ih (fun q hq => h q (List.mem_cons_of_mem _ hq)) p hp'

/-- The grouping fold keeps the invariant from any valid start. -/
theorem groupsOk_foldl (l : List Event) :
    ∀ acc, GroupsOk acc →
      GroupsOk (l.foldl (fun gs e => addToGroups gs (domainKey e) e) acc) := by
  induction l with
  | nil => intro acc h; exact h
  | cons e rest ih =>
    intro acc h
    exact ih _ (groupsOk_addToGroups h rfl)

/-- The grouping of `events_command` satisfies the invariant. -/
theorem groupBySource_ok (events : List Event) :
    GroupsOk (groupBySource events) :=
  groupsOk_foldl events [] (by intro p hp; cases hp)

/-- Taking at most `cap` of each group bounds the combined length. -/
theorem flatMap_take_length (cap : Nat) (gs : List (String × List Event)) :
    (gs.flatMap fun g => (List.insertionSort dateDesc g.2).take cap).length ≤
      cap * gs.length := by
  induction gs with
  | nil => simp
  | cons g rest ih =>
    rw [List.flatMap_cons, List.length_append]
    have h1 : ((List.insertionSort dateDesc g.2).take cap).length ≤ cap := by
      rw [List.length_take]; omega
    have h2 : cap * (g :: rest).length = cap + cap * rest.length := by
      rw [List.length_cons]; ring
    omega

/-- C4: for every input list and every positive per-source cap, the
selection's output holds at most `cap × (number of groups)` records and
every group contributes at least one; and on the spec's concrete example
(five dated records from source A, one from source B, cap 2 as the handler
hardcodes) the output is exactly two records from A and one from B. -/
theorem events_command_fair_selection :
    (∀ (cap : Nat) (events : List Event), 0 < cap →
      (selectPerSource cap events).length ≤
          cap * (groupBySource events).length ∧
        ∀ k ∈ (groupBySource events).map Prod.fst,
          ∃ e ∈ selectPerSource cap events, domainKey e = k) ∧
    (eventsCommandSelect exampleC4).countP (fun e => domainKey e == "a.com") = 2 ∧
    (eventsCommandSelect exampleC4).countP (fun e => domainKey e == "b.com") = 1 ∧
    (eventsCommandSelect exampleC4).length = 3 := by
  refine ⟨?_, by decide, by decide, by decide⟩
  intro cap events hcap
  constructor
  · rw [selectPerSource]
    simp only [List.length_insertionSort]
    exact flatMap_take_length cap (groupBySource events)
  · intro k hk
    obtain ⟨p, hp, rfl⟩ := List.mem_map.mp hk
    obtain ⟨hne, hall⟩ := groupBySource_ok events p hp
    have hlen : (List.insertionSort dateDesc p.2).length = p.2.length :=
      List.length_insertionSort ..
    have hsne : List.insertionSort dateDesc p.2 ≠ [] := by
      intro h0
      rw [h0] at hlen
      exact hne (List.eq_nil_of_length_eq_zero hlen.symm)
    obtain ⟨a, rest', ha⟩ := List.exists_cons_of_ne_nil hsne
    have hmem_take : a ∈ (List.insertionSort dateDesc p.2).take cap := by
      rw [ha]
      obtain ⟨cap', rfl⟩ := Nat.exists_eq_succ_of_ne_zero (Nat.pos_iff_ne_zero.mp hcap)
      simp
    refine ⟨a, ?_, ?_⟩
    · rw [selectPerSource]
      exact (List.mem_insertionSort _).mpr
        (List.mem_flatMap.mpr ⟨p, hp, hmem_take⟩)
    · exact hall a ((List.mem_insertionSort _).mp (ha ▸ List.mem_cons_self ..))

/-- Witness for `events_command_fair_selection`: the universal half
applied at cap 2 on the example input — the bound and source B's
guaranteed representation. -/
theorem events_command_fair_selection_witness :
    (selectPerSource 2 exampleC4).length ≤
        2 * (groupBySource exampleC4).length ∧
      ∃ e ∈ selectPerSource 2 exampleC4, domainKey e = "b.com" :=
  ⟨(events_command_fair_selection.1 2 exampleC4 (by decide)).1,
   (events_command_fair_selection.1 2 exampleC4 (by decide)).2 "b.com"
     (by decide)⟩

/-- Every string contains the empty segment. -/
theorem containsSeg_empty (s : String) : containsSeg s "" := ⟨s, "", by simp⟩

/-- A contained segment is no longer than its container. -/
theorem containsSeg_length {s seg : String} (h : containsSeg s seg) :
    seg.length ≤ s.length := by
  obtain ⟨pre, post, rfl⟩ := h
  simp [String.length_append]
  omega

/-- Every element of the joined list occurs verbatim in the join. -/
theorem joinSep_contains {l : List String} {x : String} (hx : x ∈ l) :
    containsSeg (joinSep l) x := by
  induction l with
  | nil => cases hx
  | cons a rest ih =>
    rcases rest with _ | ⟨b, rest'⟩
    · rcases List.mem_singleton.mp hx with rfl
      exact ⟨"", "", by simp [joinSep]⟩
    · rcases List.mem_cons.mp hx with rfl | hx'
      · exact ⟨"", "\n\n" ++ joinSep (b :: rest'),
          by simp [joinSep, String.append_assoc]⟩
      · obtain ⟨pre, post, hp⟩ := ih hx'
        exact ⟨a ++ "\n\n" ++ pre, post,
          by simp [joinSep, hp, String.append_assoc]⟩

/-- Length of a blank-line join of a non-empty list. -/
theorem joinSep_length {l : List String} (h : l ≠ []) :
    (joinSep l).length = (l.map String.length).sum + 2 * (l.length - 1) := by
  induction l with
  | nil => cases h rfl
  | cons a rest ih =>
    rcases rest with _ | ⟨b, rest'⟩
    · simp [joinSep]
    · rw [joinSep]
      rw [String.length_append, String.length_append, ih (by simp)]
      simp only [List.map_cons, List.sum_cons, List.length_cons]
      have : ("\n\n" : String).length = 2 := rfl
      omega

/-- Each escaped character expands to at least one character. -/
theorem escC_length_pos (c : Char) : 1 ≤ (escC c).length := by
  rw [escC]
  split_ifs <;> simp

/-- Escaping never shortens a string. -/
theorem length_le_escLen (l : List Char) :
    l.length ≤ (l.flatMap escC).length := by
  induction l with
  | nil => simp
  | cons c rest ih =>
    rw [List.flatMap_cons, List.length_append, List.length_cons]
    have := escC_length_pos c
    omega

/-- Escaping a length-`m` prefix saves at least the length of the dropped
suffix compared to escaping the whole string. -/
theorem esc_take_bound (m : Nat) (l : List Char) :
    ((l.take m).flatMap escC).length + (l.length - m) ≤
      (l.flatMap escC).length := by
  conv_rhs => rw [← List.take_append_drop m l]
  rw [List.flatMap_append, List.length_append]
  have h1 := length_le_escLen (l.drop m)
  have h2 : (l.drop m).length = l.length - m := List.length_drop ..
  omega

/-- The title segment of a present title is non-empty. -/
theorem titleSeg_ne_empty {e : Event} (h : e.title ≠ "") :
    titleSeg e ≠ "" := by
  rw [titleSeg, if_neg h]
  intro hc
  have h1 := congrArg String.length hc
  rw [String.length_append, String.length_append] at h1
  have h2 : ("<b>" : String).length = 3 := rfl
  have h3 : ("</b>" : String).length = 4 := rfl
  have h4 : ("" : String).length = 0 := rfl
  omega

/-- A blockquote-wrapped segment is non-empty. -/
theorem blockquote_ne_empty (s : String) :
    ("<blockquote>" ++ s ++ "</blockquote>" : String) ≠ "" := by
  intro hc
  have h1 := congrArg String.length hc
  rw [String.length_append, String.length_append] at h1
  have h2 : ("<blockquote>" : String).length = 12 := rfl
  have h3 : ("</blockquote>" : String).length = 13 := rfl
  have h4 : ("" : String).length = 0 := rfl
  omega

/-- Length of a blockquote segment in terms of the escaped content. -/
theorem blockquote_length (s : String) :
    ("<blockquote>" ++ htmlEscape s ++ "</blockquote>" : String).length =
      25 + (s.data.flatMap escC).length := by
  rw [String.length_append, String.length_append]
  have h1 : ("<blockquote>" : String).length = 12 := rfl
  have h2 : ("</blockquote>" : String).length = 13 := rfl
  have h3 : (htmlEscape s).length = (s.data.flatMap escC).length := rfl
  omega

/-- Swapping the description segment changes the caption's length by the
difference of the two segments (both non-empty, title present). -/
theorem captionWith_length_sub (e : Event) {X Y : String} (hX : X ≠ "")
    (hY : Y ≠ "") (ht : titleSeg e ≠ "") :
    (captionWith e X).length + Y.length =
      (captionWith e Y).length + X.length := by
  rw [captionWith, captionWith]
  by_cases hd : dateSeg e = "" <;> by_cases hs : sourceSeg e = "" <;>
    · simp only [hd, hs, ht, hX, hY, List.filter, decide_not]
      simp [ht, hX, hY, hd, hs, joinSep_length, String.length_append]
      omega

/-- Past the ceiling, `format_event_caption` is the rebuilt caption, or
its first 1021 characters plus an ellipsis when the rebuild still exceeds
1024. -/
theorem formatEventCaption_big {e : Event} (ht : titleSeg e ≠ "")
    (hbig : 1024 < (rawCaption e).length) :
    formatEventCaption e =
      if 1024 < (cap2Of e).length then strTake (cap2Of e) 1021 ++ "..."
      else cap2Of e := by
  simp only [formatEventCaption]
  rw [if_neg ht, if_pos hbig]
  rfl

/-- Every segment of the part list occurs verbatim in the built caption. -/
theorem captionWith_contains_part {e : Event} {X seg : String}
    (hseg : seg ∈ [dateSeg e, titleSeg e, X, sourceSeg e]) :
    containsSeg (captionWith e X) seg := by
  by_cases h : seg = ""
  · rw [h]; exact containsSeg_empty _
  · exact joinSep_contains (List.mem_filter.mpr ⟨hseg, by simpa using h⟩)

/-- C5 (amended): for every event whose caption exceeds the 1024 ceiling,
the returned caption is at most 1024 characters; and whenever the
non-description overhead leaves the description a non-negative budget
(`overhead ≤ 1021`, which holds in particular when only the description is
oversized), the result is exactly the caption with the description segment
replaced by its truncated-with-ellipsis form — the date, title and source
segments are all preserved verbatim and still occur in the result.  (When
the overhead itself exceeds 1021 the code's final safeguard hard-cuts the
whole caption instead, which can cut into the other segments — see the
counterexample.) -/
theorem format_event_caption_truncation (e : Event) (ht : e.title ≠ "")
    (hbig : 1024 < (rawCaption e).length) :
    (formatEventCaption e).length ≤ 1024 ∧
    (((rawCaption e).length : Int) - ((descContent e).length : Int) ≤ 1021 →
      formatEventCaption e = cap2Of e ∧
      containsSeg (formatEventCaption e) (dateSeg e) ∧
      containsSeg (formatEventCaption e) (titleSeg e) ∧
      containsSeg (formatEventCaption e) (sourceSeg e)) := by
  have htseg := titleSeg_ne_empty ht
  rw [formatEventCaption_big htseg hbig]
  by_cases hc2 : 1024 < (cap2Of e).length
  · -- hard-cut branch: length is exactly min 1021 + 3 ≤ 1024
    rw [if_pos hc2]
    constructor
    · rw [String.length_append]
      have h1 : (strTake (cap2Of e) 1021).length =
          min 1021 (cap2Of e).data.length := by
        rw [strTake]
        show ((cap2Of e).data.take 1021).length = _
        exact List.length_take ..
      have h2 : ("..." : String).length = 3 := rfl
      omega
    · -- show the room hypothesis forces the rebuild under the ceiling,
      -- contradicting this branch
      intro hroom
      exfalso
      have hmnn : (0 : Int) ≤ 1024 - (((rawCaption e).length : Int) -
          ((descContent e).length : Int)) - 3 := by omega
      have hm : (bigM e : Int) = 1021 - ((rawCaption e).length : Int) +
          ((descContent e).length : Int) := by
        rw [bigM, if_neg (by omega)]
        rw [Int.toNat_of_nonneg hmnn]
        ring
      have hsub : (rawCaption e).length + (truncDescSeg e).length =
          (cap2Of e).length + (descSeg e).length := by
        have := captionWith_length_sub e
          (X := descSeg e) (Y := truncDescSeg e)
          (blockquote_ne_empty _) (blockquote_ne_empty _) htseg
        exact this
      have hdlen : (descSeg e).length =
          25 + ((descContent e).data.flatMap escC).length := by
        rw [descSeg]; exact blockquote_length _
      have hd2data : (strTake (descContent e) (bigM e) ++ "...").data =
          (descContent e).data.take (bigM e) ++ ("..." : String).data := by
        rfl
      have hd2len : (truncDescSeg e).length =
          25 + (((descContent e).data.take (bigM e)).flatMap escC).length
            + 3 := by
        rw [truncDescSeg, blockquote_length, hd2data, List.flatMap_append,
            List.length_append]
        have : ((("..." : String).data.flatMap escC)).length = 3 := rfl
        omega
      have hbound := esc_take_bound (bigM e) (descContent e).data
      have hDlen : (descContent e).length = (descContent e).data.length := rfl
      have hmlt : bigM e < (descContent e).data.length := by omega
      omega
  · rw [if_neg hc2]
    constructor
    · omega
    · intro _
      refine ⟨rfl, ?_, ?_, ?_⟩
      · exact captionWith_contains_part (by simp)
      · exact captionWith_contains_part (by simp)
      · exact captionWith_contains_part (by simp)

/-- A character that escapes to itself contributes its own length under
escaping of a repeated string. -/
theorem flatMap_escC_replicate (n : Nat) {c : Char} (hc : escC c = [c]) :
    (List.replicate n c).flatMap escC = List.replicate n c := by
  induction n with
  | zero => rfl
  | succ n ih =>
    rw [List.replicate_succ, List.flatMap_cons, hc, ih]
    rfl

/-- The description segment is never empty (it is blockquote-wrapped). -/
theorem descSeg_ne_empty (e : Event) : descSeg e ≠ "" := by
  rw [descSeg]; exact blockquote_ne_empty _

/-- The rebuilt description segment is never empty. -/
theorem truncDescSeg_ne_empty (e : Event) : truncDescSeg e ≠ "" := by
  rw [truncDescSeg]; exact blockquote_ne_empty _

/-- Length of the caption when all four segments are non-empty: segment
lengths plus the three two-character separators. -/
theorem captionWith_length_all (e : Event) {X : String}
    (hd : dateSeg e ≠ "") (ht : titleSeg e ≠ "") (hX : X ≠ "")
    (hs : sourceSeg e ≠ "") :
    (captionWith e X).length =
      (dateSeg e).length + (titleSeg e).length + X.length +
        (sourceSeg e).length + 6 := by
  rw [captionWith]
  have hfilter : [dateSeg e, titleSeg e, X, sourceSeg e].filter (· ≠ "") =
      [dateSeg e, titleSeg e, X, sourceSeg e] := by
    simp [hd, ht, hX, hs]
  rw [hfilter, joinSep_length (by simp)]
  simp only [List.map_cons, List.map_nil, List.sum_cons, List.sum_nil,
    List.length_cons, List.length_nil]
  omega

/-- The 1100-character title of the counterexample event. -/
theorem exC5long_title_length : exC5long.title.length = 1100 := by
  show (String.mk (List.replicate 1100 'A')).length = 1100
  show (List.replicate 1100 'A').length = 1100
  rw [List.length_replicate]

/-- The counterexample's title is present (non-empty). -/
theorem exC5long_title_ne : exC5long.title ≠ "" := by
  intro h
  have := congrArg String.length h
  rw [exC5long_title_length] at this
  exact absurd this (by decide)

/-- The counterexample's title segment is 1107 characters. -/
theorem exC5long_titleSeg_length : (titleSeg exC5long).length = 1107 := by
  rw [titleSeg, if_neg exC5long_title_ne, String.length_append,
      String.length_append]
  have h1 : ("<b>" : String).length = 3 := rfl
  have h2 : ("</b>" : String).length = 4 := rfl
  have h3 : (htmlEscape exC5long.title).length = 1100 := by
    show ((String.mk (List.replicate 1100 'A')).data.flatMap escC).length = 1100
    show ((List.replicate 1100 'A').flatMap escC).length = 1100
    rw [flatMap_escC_replicate 1100 (by decide), List.length_replicate]
  omega

/-- The counterexample's raw caption is 1198 characters. -/
theorem exC5long_rawCaption_length : (rawCaption exC5long).length = 1198 := by
  rw [rawCaption, captionWith_length_all exC5long (by decide)
    (titleSeg_ne_empty exC5long_title_ne) (descSeg_ne_empty _) (by decide)]
  rw [exC5long_titleSeg_length]
  have h1 : (dateSeg exC5long).length = 23 := by decide
  have h2 : (descSeg exC5long).length = 26 := by decide
  have h3 : (sourceSeg exC5long).length = 36 := by decide
  omega

/-- The counterexample's description budget is clamped to zero. -/
theorem exC5long_bigM : bigM exC5long = 0 := by
  rw [bigM, exC5long_rawCaption_length]
  have h1 : (descContent exC5long).length = 1 := by decide
  rw [h1]
  rfl

/-- The rebuilt caption of the counterexample is 1200 characters, still
past the ceiling. -/
theorem exC5long_cap2_length : (cap2Of exC5long).length = 1200 := by
  have htd : (truncDescSeg exC5long).length = 28 := by
    rw [truncDescSeg, exC5long_bigM]
    rfl
  rw [cap2Of, captionWith_length_all exC5long (by decide)
    (titleSeg_ne_empty exC5long_title_ne) (truncDescSeg_ne_empty _) (by decide)]
  rw [exC5long_titleSeg_length, htd]
  have h1 : (dateSeg exC5long).length = 23 := by decide
  have h3 : (sourceSeg exC5long).length = 36 := by decide
  omega

/-- C5 counterexample: a caption past the ceiling where NOT only the
description is truncated.  For the 1100-character-title event the
formatted caption is the 1024-character hard-cut, which is shorter than
its own title segment, so the title segment cannot occur verbatim in it:
the title is not preserved, refuting the claim as stated. -/
theorem format_event_caption_cuts_title :
    1024 < (rawCaption exC5long).length ∧
    (formatEventCaption exC5long).length = 1024 ∧
    ¬ containsSeg (formatEventCaption exC5long) (titleSeg exC5long) := by
  have hbig : 1024 < (rawCaption exC5long).length := by
    rw [exC5long_rawCaption_length]; omega
  have hlen : (formatEventCaption exC5long).length = 1024 := by
    rw [formatEventCaption_big (titleSeg_ne_empty exC5long_title_ne) hbig,
        if_pos (by rw [exC5long_cap2_length]; omega)]
    rw [String.length_append]
    have h1 : (strTake (cap2Of exC5long) 1021).length =
        min 1021 (cap2Of exC5long).data.length := by
      show ((cap2Of exC5long).data.take 1021).length = _
      exact List.length_take ..
    have h2 : (cap2Of exC5long).data.length = 1200 := exC5long_cap2_length
    have h3 : ("..." : String).length = 3 := rfl
    omega
  refine ⟨hbig, hlen, ?_⟩
  intro h
  have h1 := containsSeg_length h
  rw [hlen, exC5long_titleSeg_length] at h1
  omega

/-- The oversized description is the 2000-character content. -/
theorem exC5desc_descContent_length : (descContent exC5desc).length = 2000 := by
  show (String.mk (List.replicate 2000 'D')).length = 2000
  show (List.replicate 2000 'D').length = 2000
  rw [List.length_replicate]

/-- The description segment of the witness event is 2025 characters. -/
theorem exC5desc_descSeg_length : (descSeg exC5desc).length = 2025 := by
  rw [descSeg, blockquote_length]
  have h : ((descContent exC5desc).data.flatMap escC).length = 2000 := by
    show ((List.replicate 2000 'D').flatMap escC).length = 2000
    rw [flatMap_escC_replicate 2000 (by decide), List.length_replicate]
  omega

/-- The witness event's raw caption is 2098 characters. -/
theorem exC5desc_rawCaption_length : (rawCaption exC5desc).length = 2098 := by
  rw [rawCaption, captionWith_length_all exC5desc (by decide)
    (titleSeg_ne_empty (by decide)) (descSeg_ne_empty _) (by decide)]
  rw [exC5desc_descSeg_length]
  have h1 : (dateSeg exC5desc).length = 23 := by decide
  have h2 : (titleSeg exC5desc).length = 8 := by decide
  have h3 : (sourceSeg exC5desc).length = 36 := by decide
  omega

/-- Witness for `format_event_caption_truncation`: on the
oversized-description event the result stays within 1024 characters,
equals the caption with only the description segment truncated, and keeps
the title segment. -/
theorem format_event_caption_truncation_witness :
    (formatEventCaption exC5desc).length ≤ 1024 ∧
    formatEventCaption exC5desc = cap2Of exC5desc ∧
    containsSeg (formatEventCaption exC5desc) (titleSeg exC5desc) := by
  have hbig : 1024 < (rawCaption exC5desc).length := by
    rw [exC5desc_rawCaption_length]; omega
  have hroom : ((rawCaption exC5desc).length : Int) -
      ((descContent exC5desc).length : Int) ≤ 1021 := by
    rw [exC5desc_rawCaption_length, exC5desc_descContent_length]; omega
  have h := format_event_caption_truncation exC5desc (by decide) hbig
  exact ⟨h.1, (h.2 hroom).1, (h.2 hroom).2.2.1⟩
